import Mathlib

/-!
Shallow embedding of `demos/market-maker-5000/market_maker_bot.py`.

Prices, volumes and balances are modelled as rationals (the Python code uses
floats; we take the ideal real-number semantics).  `round(x, p)` in Python
rounds half to even, which `pyRound` reproduces.  The exchange gateway
(`make_request` and its wrappers) is modelled as an oracle `Gateway` giving
each request its structured result or `none` for a transport/venue failure,
and the loop functions are interpreted as trace-producing functions over that
oracle.
-/

/-- A JSON field that a ticker payload may carry: absent, present but not a
number (so `float(...)` raises `ValueError`), or a numeric value. -/
inductive JsonNum where
  | missing
  | nonNumeric
  | num (q : ℚ)
deriving DecidableEq, Repr

/-- Ticker payload as used by `get_market_making_prices`: the `bid` and `ask`
fields (the code also receives `last_trade` but never reads it). -/
structure Ticker where
  bid : JsonNum
  ask : JsonNum
deriving DecidableEq, Repr

/-- The error raised when a ticker field is missing (`KeyError`) or
non-numeric (`ValueError`); the spec calls both `InvalidMarketData`. -/
inductive MMError where
  | InvalidMarketData
deriving DecidableEq, Repr

/-- `float(ticker[field])`: raises `InvalidMarketData` unless the field is
present and numeric. -/
def floatOf : JsonNum → Except MMError ℚ
  | JsonNum.missing => Except.error MMError.InvalidMarketData
  | JsonNum.nonNumeric => Except.error MMError.InvalidMarketData
  | JsonNum.num q => Except.ok q

/-- `SPREAD_PERCENTAGE = 0.5` (module constant, line 30). -/
def SPREAD_PERCENTAGE : ℚ := 1 / 2

/-- `ORDER_SIZE_PERCENTAGE = 2.0` (module constant, line 31). -/
def ORDER_SIZE_PERCENTAGE : ℚ := 2

/-- `PRICE_PRECISION = 0` (module constant, line 34). -/
def PRICE_PRECISION : ℕ := 0

/-- `TRADING_PAIRS` (module constant, lines 25-27). -/
def TRADING_PAIRS : List String :=
  ["XBTZAR", "ETHZAR", "XRPZAR", "ETHXBT", "USDCZAR"]

/-- Round a rational to the nearest integer, ties to even — the semantics of
Python 3 `round` on an exact value. -/
def roundHalfEven (x : ℚ) : ℤ :=
  let n := ⌊x⌋
  let r := x - n
  if r < 1 / 2 then n
  else if 1 / 2 < r then n + 1
  else if Even n then n else n + 1

/-- `round(x, p)` for a natural precision `p`: round `x * 10^p` half to even,
then scale back. -/
def pyRound (x : ℚ) (p : ℕ) : ℚ :=
  (roundHalfEven (x * 10 ^ p) : ℚ) / 10 ^ p

/-- Core of `get_market_making_prices` (lines 143-156) with the spread
percentage and price precision as explicit parameters: mid price, half
spread, and the rounded bid/ask quotes. -/
def mmPricesCore (spread_percentage : ℚ) (price_precision : ℕ)
    (bid ask : ℚ) : ℚ × ℚ :=
  let mid := (bid + ask) / 2
  let spread := mid * spread_percentage / 100
  let new_bid := mid - spread
  let new_ask := mid + spread
  (pyRound new_bid price_precision, pyRound new_ask price_precision)

/-- `get_market_making_prices(ticker)` (lines 143-156): parse `bid` and `ask`
with `float`, then compute the quote pair with the module constants. -/
def get_market_making_prices (ticker : Ticker) : Except MMError (ℚ × ℚ) :=
  match floatOf ticker.bid with
  | Except.error e => Except.error e
  | Except.ok bid =>
      match floatOf ticker.ask with
      | Except.error e => Except.error e
      | Except.ok ask =>
          Except.ok (mmPricesCore SPREAD_PERCENTAGE PRICE_PRECISION bid ask)

/-- One account entry in the balances payload. -/
structure Account where
  asset : String
  balance : ℚ
  reserved : ℚ
deriving DecidableEq, Repr

/-- Result of `get_asset_balance` (lines 117-126). -/
structure BalanceInfo where
  balance : ℚ
  reserved : ℚ
  available : ℚ
deriving DecidableEq, Repr

/-- `get_asset_balance(balances, asset)` (lines 117-126): the first account
whose asset matches, or an all-zero record when none does. -/
def get_asset_balance (balances : List Account) (asset : String) :
    BalanceInfo :=
  match balances.find? (fun account => account.asset == asset) with
  | some account =>
      ⟨account.balance, account.reserved, account.balance - account.reserved⟩
  | none => ⟨0, 0, 0⟩

/-- `calculate_order_size(pair, balances, price, side)` (lines 128-141):
side `"BUY"` sizes from the quote asset (`pair[3:]`) divided by price; any
other side sizes from the base asset (`pair[:3]`). -/
def calculate_order_size (pair : String) (balances : List Account)
    (price : ℚ) (side : String) : ℚ :=
  if side == "BUY" then
    let quote_asset := pair.drop 3
    let quote_balance := get_asset_balance balances quote_asset
    let available_quote := quote_balance.available
    available_quote * ORDER_SIZE_PERCENTAGE / 100 / price
  else
    let base_asset := pair.take 3
    let base_balance := get_asset_balance balances base_asset
    let available_base := base_balance.available
    available_base * ORDER_SIZE_PERCENTAGE / 100

/-- Observable actions of the bot against the gateway and its log, in the
order they happen.  `logTickerFail pair` is the log line
`"Failed to get ticker for {pair}"` (line 174); `computeQuote` and
`computeSize` mark the (pure) quote and sizing computations so that the
per-pair step order is visible in the trace; `placeOrder` is a `postorder`
request (line 81) and `cancelOrderEv id ok` a `stoporder` request
(line 92) whose venue answer was success `ok`. -/
inductive Event where
  | getBalances
  | getTicker (pair : String)
  | logTickerFail (pair : String)
  | computeQuote (pair : String)
  | listOrders (pair : Option String)
  | cancelOrderEv (orderId : String) (ok : Bool)
  | computeSize (pair : String) (side : String)
  | placeOrder (pair : String) (orderType : String) (volume price : ℚ)
deriving DecidableEq, Repr

/-- An entry of the `active_orders` registry (lines 188-194, 201-207). -/
structure OrderRec where
  orderId : String
  pair : String
  orderType : String
  price : ℚ
  volume : ℚ
deriving DecidableEq, Repr

/-- The exchange gateway as an oracle: what each request would return.
`none` stands for `make_request` returning `None` (transport failure or
non-success status).  `openOrders` answers `listorders`: `none` = request
failed, `some none` = payload without an `"orders"` field, `some (some ids)`
= the listed order ids.  `createOrder` answers `postorder` with the new
order id, or `none` when the request failed or the payload had no
`"order_id"`.  `cancelOrder` answers `stoporder` with its success flag. -/
structure Gateway where
  balances : Option (List Account)
  ticker : String → Option Ticker
  openOrders : Option String → Option (Option (List String))
  createOrder : String → String → ℚ → ℚ → Option String
  cancelOrder : String → Bool

/-- `cancel_all_orders(pair)` (lines 108-115) as the trace it produces:
list the open orders; on a failed request or a payload without `"orders"`,
return at once; otherwise attempt to cancel every listed order (the loop
never stops early — a failed cancel is logged and iteration continues). -/
def cancel_all_orders (g : Gateway) (pair : Option String) : List Event :=
  Event.listOrders pair ::
    match g.openOrders pair with
    | none => []
    | some none => []
    | some (some ids) =>
        ids.map (fun orderId => Event.cancelOrderEv orderId (g.cancelOrder orderId))

/-- One placement leg of `place_market_making_orders` (lines 183-207):
compute the order size; when it is positive, send `create_order` and on
success produce the registry record. -/
def place_leg (g : Gateway) (balances : List Account) (pair : String)
    (orderType side : String) (price : ℚ) : List Event × List OrderRec :=
  let volume := calculate_order_size pair balances price side
  if volume > 0 then
    match g.createOrder pair orderType volume price with
    | some oid =>
        ([Event.computeSize pair side, Event.placeOrder pair orderType volume price],
         [⟨oid, pair, orderType, price, volume⟩])
    | none =>
        ([Event.computeSize pair side, Event.placeOrder pair orderType volume price],
         [])
  else
    ([Event.computeSize pair side], [])

/-- The body of the `for pair in TRADING_PAIRS` loop (lines 168-207) for one
pair: fetch the ticker (on failure log and `continue`); compute the quote
prices — an `InvalidMarketData` failure propagates as an exception; cancel
the pair's existing orders; then the buy leg and the sell leg. -/
def process_pair (g : Gateway) (balances : List Account) (pair : String) :
    List Event × Except MMError (List OrderRec) :=
  match g.ticker pair with
  | none => ([Event.getTicker pair, Event.logTickerFail pair], Except.ok [])
  | some t =>
      match get_market_making_prices t with
      | Except.error e => ([Event.getTicker pair], Except.error e)
      | Except.ok prices =>
          let cancelEvs := cancel_all_orders g (some pair)
          let buy := place_leg g balances pair "BID" "BUY" prices.1
          let sell := place_leg g balances pair "ASK" "ASK" prices.2
          (Event.getTicker pair :: Event.computeQuote pair ::
             (cancelEvs ++ buy.1 ++ sell.1),
           Except.ok (buy.2 ++ sell.2))

/-- The `for` loop of `place_market_making_orders` over a list of pairs,
collecting the trace and the registry; an exception from a pair aborts the
rest of the loop. -/
def run_pairs (g : Gateway) (balances : List Account) :
    List String → List Event × Except MMError (List OrderRec)
  | [] => ([], Except.ok [])
  | pair :: rest =>
      match process_pair g balances pair with
      | (evs, Except.error e) => (evs, Except.error e)
      | (evs, Except.ok recs) =>
          match run_pairs g balances rest with
          | (evs2, Except.error e) => (evs ++ evs2, Except.error e)
          | (evs2, Except.ok recs2) => (evs ++ evs2, Except.ok (recs ++ recs2))

/-- `place_market_making_orders()` (lines 158-209): fetch balances, then
process every configured pair.  The guard `if not balances_response:`
(line 161) is a Python truthiness test: it logs and returns both when the
request failed (`None`) and when the venue returned an empty accounts list
(`[]` is falsy), so both cases end the cycle with no pair processed. -/
def place_market_making_orders (g : Gateway) :
    List Event × Except MMError (List OrderRec) :=
  match g.balances with
  | none => ([Event.getBalances], Except.ok [])
  | some [] => ([Event.getBalances], Except.ok [])
  | some (account :: accounts) =>
      match run_pairs g (account :: accounts) TRADING_PAIRS with
      | (evs, r) => (Event.getBalances :: evs, r)

/-- One pass of `main` (lines 211-234) under its `try/except` handlers.
`interruptAt = some n` models a `KeyboardInterrupt` arriving after the
first `n` observable actions of the cycle: the cycle's trace is cut there
and the handler runs `cancel_all_orders()` with no pair filter.
`interruptAt = none` runs the cycle to completion; if it raised, the
`except Exception` handler likewise runs the venue-wide
`cancel_all_orders()`. -/
def main_model (g : Gateway) (interruptAt : Option ℕ) : List Event :=
  let cycle := place_market_making_orders g
  match interruptAt with
  | some n => cycle.1.take n ++ cancel_all_orders g none
  | none =>
      match cycle.2 with
      | Except.error _ => cycle.1 ++ cancel_all_orders g none
      | Except.ok _ => cycle.1

/-- Python rounding moves a value by at most one half. -/
theorem abs_roundHalfEven_sub_le (y : ℚ) : |(roundHalfEven y : ℚ) - y| ≤ 1 / 2 := by
  have h1 : (⌊y⌋ : ℚ) ≤ y := Int.floor_le y
  have h2 : y < ⌊y⌋ + 1 := Int.lt_floor_add_one y
  simp only [roundHalfEven]
  split_ifs with ha hb hc <;>
    (rw [abs_le]; push_cast; constructor <;> linarith)

/-- `round(x, p)` moves a value by at most half an ulp of precision `p`. -/
theorem abs_pyRound_sub_le (x : ℚ) (p : ℕ) : |pyRound x p - x| ≤ 1 / 2 / 10 ^ p := by
  have hp : (0:ℚ) < 10 ^ p := by positivity
  have h := abs_roundHalfEven_sub_le (x * 10 ^ p)
  have key : pyRound x p - x = ((roundHalfEven (x * 10 ^ p) : ℚ) - x * 10 ^ p) / 10 ^ p := by
    unfold pyRound; field_simp; ring
  rw [key, abs_div, abs_of_pos hp]
  gcongr

/-- C1, counterexample to the claim as stated: within the claim's scope
(bid ≤ ask, spread_percentage = `SPREAD_PERCENTAGE` = 0.5 ≥ 0), the ticker
bid = ask = 8/5 yields quotes (2, 2), and 2 > mid = 8/5, refuting
bid_quote ≤ mid; moreover at the spec's own worked example the quote
difference is 10010 while mid × spread_percentage / 100 = 5005, so the
claimed difference equation is off far beyond any rounding tolerance. -/
theorem quote_spread_claim_cex :
    ((8:ℚ)/5 ≤ 8/5 ∧ (0:ℚ) ≤ SPREAD_PERCENTAGE) ∧
    get_market_making_prices ⟨JsonNum.num (8/5), JsonNum.num (8/5)⟩ = Except.ok (2, 2) ∧
    ¬ ((2:ℚ) ≤ ((8:ℚ)/5 + 8/5) / 2) ∧
    get_market_making_prices ⟨JsonNum.num 1000000, JsonNum.num 1002000⟩ =
      Except.ok (995995, 1006005) ∧
    ¬ (|((1006005:ℚ) - 995995) -
          ((1000000:ℚ) + 1002000) / 2 * SPREAD_PERCENTAGE / 100| ≤ 1 / 10 ^ PRICE_PRECISION) := by
  refine ⟨⟨le_refl _, by norm_num [SPREAD_PERCENTAGE]⟩, ?_, by norm_num, ?_, ?_⟩
  · norm_num [get_market_making_prices, floatOf, mmPricesCore, SPREAD_PERCENTAGE,
      PRICE_PRECISION, pyRound, roundHalfEven]
  · norm_num [get_market_making_prices, floatOf, mmPricesCore, SPREAD_PERCENTAGE,
      PRICE_PRECISION, pyRound, roundHalfEven]
  · norm_num [SPREAD_PERCENTAGE, PRICE_PRECISION, abs_le]

/-- C1, amended: for nonnegative bid ≤ ask and spread_percentage ≥ 0, each
quote stays on its side of mid up to half an ulp of the price precision, and
ask_quote − bid_quote equals **2 ×** mid × spread_percentage / 100 up to one
ulp (the code applies the half-spread on each side of mid). -/
theorem quote_bounds_amended (spread_percentage : ℚ) (p : ℕ) (bid ask : ℚ)
    (hb : 0 ≤ bid) (hba : bid ≤ ask) (hs : 0 ≤ spread_percentage) :
    (mmPricesCore spread_percentage p bid ask).1 ≤ (bid + ask) / 2 + 1 / 2 / 10 ^ p ∧
    (bid + ask) / 2 - 1 / 2 / 10 ^ p ≤ (mmPricesCore spread_percentage p bid ask).2 ∧
    |((mmPricesCore spread_percentage p bid ask).2 - (mmPricesCore spread_percentage p bid ask).1) -
        2 * ((bid + ask) / 2 * spread_percentage / 100)| ≤ 1 / 10 ^ p := by
  have hp : (0:ℚ) < 10 ^ p := by positivity
  have hmid0 : 0 ≤ (bid + ask) / 2 := by linarith
  have hsp : 0 ≤ (bid + ask) / 2 * spread_percentage / 100 := by positivity
  have h2p : 1 / 2 / 10 ^ p + 1 / 2 / 10 ^ p = 1 / (10:ℚ) ^ p := by ring
  have hb1 := abs_le.mp
    (abs_pyRound_sub_le ((bid + ask) / 2 - (bid + ask) / 2 * spread_percentage / 100) p)
  have hb2 := abs_le.mp
    (abs_pyRound_sub_le ((bid + ask) / 2 + (bid + ask) / 2 * spread_percentage / 100) p)
  simp only [mmPricesCore]
  refine ⟨?_, ?_, ?_⟩
  · linarith [hb1.1, hb1.2]
  · linarith [hb2.1, hb2.2]
  · rw [abs_le]
    constructor <;> linarith [hb1.1, hb1.2, hb2.1, hb2.2]

/-- C1 witness: the amended bounds at bid = 1000000, ask = 1002000,
spread_percentage = 0.5, precision 0. -/
theorem quote_bounds_amended_witness :
    (mmPricesCore (1/2) 0 1000000 1002000).1 ≤ ((1000000:ℚ) + 1002000) / 2 + 1 / 2 / 10 ^ 0 ∧
    ((1000000:ℚ) + 1002000) / 2 - 1 / 2 / 10 ^ 0 ≤ (mmPricesCore (1/2) 0 1000000 1002000).2 ∧
    |((mmPricesCore (1/2) 0 1000000 1002000).2 - (mmPricesCore (1/2) 0 1000000 1002000).1) -
        2 * (((1000000:ℚ) + 1002000) / 2 * (1/2) / 100)| ≤ 1 / 10 ^ 0 :=
  quote_bounds_amended (1/2) 0 1000000 1002000 (by norm_num) (by norm_num) (by norm_num)

/-- C4: on a ticker with numeric bid and ask, the Quote Calculator returns
round(mid − mid × (spread_percentage/100), price_precision) and
round(mid + mid × (spread_percentage/100), price_precision) with
mid = (bid + ask)/2 and the configured spread_percentage = 0.5 and integer
price precision; at the documented example it returns (995995, 1006005). -/
theorem quote_formula_and_example :
    (∀ b a : ℚ, get_market_making_prices ⟨JsonNum.num b, JsonNum.num a⟩ =
      Except.ok
        (pyRound ((b + a) / 2 - (b + a) / 2 * (SPREAD_PERCENTAGE / 100)) PRICE_PRECISION,
         pyRound ((b + a) / 2 + (b + a) / 2 * (SPREAD_PERCENTAGE / 100)) PRICE_PRECISION)) ∧
    get_market_making_prices ⟨JsonNum.num 1000000, JsonNum.num 1002000⟩ =
      Except.ok (995995, 1006005) := by
  constructor
  · intro b a
    simp [get_market_making_prices, floatOf, mmPricesCore, mul_div_assoc]
  · norm_num [get_market_making_prices, floatOf, mmPricesCore, SPREAD_PERCENTAGE,
      PRICE_PRECISION, pyRound, roundHalfEven]

/-- C5: the Order Sizer computes a BUY size as
(available quote balance × size% / 100) / price with the quote asset taken
from character 3 on, a SELL size as available base balance × size% / 100
with the base asset the first 3 characters; a base balance of 0.05 at
size% = 2 gives sell volume 0.001. -/
theorem order_size_formula :
    (∀ (pair : String) (bals : List Account) (price : ℚ), 0 < price →
      calculate_order_size pair bals price "BUY" =
        (get_asset_balance bals (pair.drop 3)).available * ORDER_SIZE_PERCENTAGE / 100 / price) ∧
    (∀ (pair : String) (bals : List Account) (price : ℚ), 0 < price →
      calculate_order_size pair bals price "SELL" =
        (get_asset_balance bals (pair.take 3)).available * ORDER_SIZE_PERCENTAGE / 100) ∧
    calculate_order_size "XBTZAR" [⟨"XBT", 1/20, 0⟩] 1 "SELL" = 1/1000 := by
  refine ⟨?_, ?_, ?_⟩
  · intro pair bals price _
    simp [calculate_order_size]
  · intro pair bals price _
    simp [calculate_order_size, show (("SELL" : String) == "BUY") = false by decide]
  · norm_num [calculate_order_size, get_asset_balance, ORDER_SIZE_PERCENTAGE, List.find?,
      show ("XBTZAR".take 3) = "XBT" from rfl, show (("SELL" : String) == "BUY") = false by decide]

/-- C5 witness: the BUY formula at the spec's example (quote balance 10000,
price 995995) and the SELL branch at base balance 0.05. -/
theorem order_size_formula_witness :
    calculate_order_size "XBTZAR" [⟨"ZAR", 10000, 0⟩] 995995 "BUY" =
      (get_asset_balance [⟨"ZAR", 10000, 0⟩] ("XBTZAR".drop 3)).available *
        ORDER_SIZE_PERCENTAGE / 100 / 995995 ∧
    calculate_order_size "XBTZAR" [⟨"XBT", 1/20, 0⟩] 1 "SELL" =
      (get_asset_balance [⟨"XBT", 1/20, 0⟩] ("XBTZAR".take 3)).available *
        ORDER_SIZE_PERCENTAGE / 100 :=
  ⟨order_size_formula.1 "XBTZAR" [⟨"ZAR", 10000, 0⟩] 995995 (by norm_num),
   order_size_formula.2.1 "XBTZAR" [⟨"XBT", 1/20, 0⟩] 1 (by norm_num)⟩

/-- C6: an asset with no balance record resolves to the all-zero balance
record (the UnknownAsset case is absorbed as zero available balance, not a
fatal error), and a zero available balance yields volume 0 on both sides. -/
theorem unknown_asset_zero_size :
    (∀ (bals : List Account) (asset : String),
      (∀ account ∈ bals, account.asset ≠ asset) →
      get_asset_balance bals asset = ⟨0, 0, 0⟩) ∧
    (∀ (pair : String) (bals : List Account) (price : ℚ),
      (get_asset_balance bals (pair.drop 3)).available = 0 →
      calculate_order_size pair bals price "BUY" = 0) ∧
    (∀ (pair : String) (bals : List Account) (price : ℚ),
      (get_asset_balance bals (pair.take 3)).available = 0 →
      calculate_order_size pair bals price "SELL" = 0) := by
  refine ⟨?_, ?_, ?_⟩
  · intro bals asset h
    have hf : bals.find? (fun account => account.asset == asset) = none := by
      rw [List.find?_eq_none]
      intro account hmem
      simpa using h account hmem
    simp [get_asset_balance, hf]
  · intro pair bals price h
    simp [calculate_order_size, h]
  · intro pair bals price h
    simp [calculate_order_size, show (("SELL" : String) == "BUY") = false by decide, h]

/-- C6 witness: an empty balance set has no record for ZAR or XBT, so the
balance record is all-zero and both order sizes are 0. -/
theorem unknown_asset_zero_size_witness :
    get_asset_balance [] "ZAR" = ⟨0, 0, 0⟩ ∧
    calculate_order_size "XBTZAR" [] 5 "BUY" = 0 ∧
    calculate_order_size "XBTZAR" [] 5 "SELL" = 0 :=
  ⟨unknown_asset_zero_size.1 [] "ZAR" (by simp),
   unknown_asset_zero_size.2.1 "XBTZAR" [] 5 (by simp [get_asset_balance]),
   unknown_asset_zero_size.2.2 "XBTZAR" [] 5 (by simp [get_asset_balance])⟩
theorem place_leg_events (g : Gateway) (bals : List Account) (pair ty side : String) (price : ℚ) :
    (place_leg g bals pair ty side price).1 =
      Event.computeSize pair side ::
        (if calculate_order_size pair bals price side > 0 then
          [Event.placeOrder pair ty (calculate_order_size pair bals price side) price]
        else []) := by
  simp only [place_leg]
  split_ifs with h
  · cases hg : g.createOrder pair ty (calculate_order_size pair bals price side) price <;> simp
  · rfl

theorem mem_cancel_all_orders {e : Event} {g : Gateway} {p : Option String}
    (he : e ∈ cancel_all_orders g p) :
    e = Event.listOrders p ∨ ∃ oid, e = Event.cancelOrderEv oid (g.cancelOrder oid) := by
  unfold cancel_all_orders at he
  rcases List.mem_cons.mp he with h | h
  · exact Or.inl h
  · right
    cases hg : g.openOrders p with
    | none => rw [hg] at h; simp at h
    | some op =>
        rw [hg] at h
        cases op with
        | none => simp at h
        | some ids =>
            simp only [List.mem_map] at h
            obtain ⟨oid, _, rfl⟩ := h
            exact ⟨oid, rfl⟩

theorem mem_place_leg_events {e : Event} {g : Gateway} {bals : List Account}
    {pair ty side : String} {price : ℚ} (he : e ∈ (place_leg g bals pair ty side price).1) :
    e = Event.computeSize pair side ∨
      (e = Event.placeOrder pair ty (calculate_order_size pair bals price side) price ∧
        0 < calculate_order_size pair bals price side) := by
  rw [place_leg_events] at he
  rcases List.mem_cons.mp he with h | h
  · exact Or.inl h
  · right
    by_cases hv : calculate_order_size pair bals price side > 0
    · rw [if_pos hv] at h
      simp only [List.mem_singleton] at h
      exact ⟨h, hv⟩
    · rw [if_neg hv] at h
      simp at h

theorem run_pairs_trace (g : Gateway) (bals : List Account) (pair : String) (rest : List String) :
    (run_pairs g bals (pair :: rest)).1 =
      (process_pair g bals pair).1 ++
        (match (process_pair g bals pair).2 with
          | Except.error _ => []
          | Except.ok _ => (run_pairs g bals rest).1) := by
  simp only [run_pairs]
  rcases hp : process_pair g bals pair with ⟨evs, r⟩
  rcases r with e | recs
  · simp
  · rcases hr : run_pairs g bals rest with ⟨evs2, r2⟩
    rcases r2 with e2 | recs2 <;> simp
theorem placeOrder_pos_process_pair {g : Gateway} {bals : List Account} {pair p2 ty : String}
    {v pr : ℚ} (h : Event.placeOrder p2 ty v pr ∈ (process_pair g bals pair).1) : 0 < v := by
  rcases hg : g.ticker pair with _ | t
  · simp [process_pair, hg] at h
  · rcases hq : get_market_making_prices t with e | q
    · simp [process_pair, hg, hq] at h
    · simp only [process_pair, hg, hq, List.mem_cons, List.mem_append] at h
      rcases h with h | h | (h | h) | h
      · simp at h
      · simp at h
      · rcases mem_cancel_all_orders h with h1 | ⟨oid, h1⟩ <;> simp at h1
      · rcases mem_place_leg_events h with h1 | ⟨h1, h2⟩
        · simp at h1
        · simp only [Event.placeOrder.injEq] at h1
          obtain ⟨-, -, rfl, -⟩ := h1
          exact h2
      · rcases mem_place_leg_events h with h1 | ⟨h1, h2⟩
        · simp at h1
        · simp only [Event.placeOrder.injEq] at h1
          obtain ⟨-, -, rfl, -⟩ := h1
          exact h2

theorem placeOrder_pos_run_pairs {g : Gateway} {bals : List Account} {p2 ty : String}
    {v pr : ℚ} :
    ∀ ps : List String, Event.placeOrder p2 ty v pr ∈ (run_pairs g bals ps).1 → 0 < v := by
  intro ps
  induction ps with
  | nil => intro h; simp [run_pairs] at h
  | cons pair rest ih =>
      intro h
      rw [run_pairs_trace] at h
      rcases List.mem_append.mp h with h | h
      · exact placeOrder_pos_process_pair h
      · rcases hp : (process_pair g bals pair).2 with e | recs
        · rw [hp] at h; simp at h
        · rw [hp] at h; exact ih h
/-- C9: every order-placement request carries a strictly positive volume. -/
theorem orders_positive_volume (g : Gateway) (pair ty : String) (v pr : ℚ)
    (h : Event.placeOrder pair ty v pr ∈ (place_market_making_orders g).1) : 0 < v := by
  rcases hb : g.balances with _ | bals
  · simp [place_market_making_orders, hb] at h
  · rcases bals with _ | ⟨account, accounts⟩
    · simp [place_market_making_orders, hb] at h
    · rcases hr : run_pairs g (account :: accounts) TRADING_PAIRS with ⟨evs, r⟩
      simp only [place_market_making_orders, hb, hr, List.mem_cons] at h
      rcases h with h | h
      · simp at h
      · have hevs : evs = (run_pairs g (account :: accounts) TRADING_PAIRS).1 := by rw [hr]
        exact placeOrder_pos_run_pairs TRADING_PAIRS (hevs ▸ h)

/-- Gateway scenario with funded balances and one healthy pair, used to
exercise a successful order placement. -/
def gOrders : Gateway where
  balances := some [⟨"XBT", 10, 0⟩, ⟨"ZAR", 1000, 0⟩]
  ticker := fun p => if p = "XBTZAR" then some ⟨JsonNum.num 90, JsonNum.num 110⟩ else none
  openOrders := fun _ => some (some [])
  createOrder := fun _ _ _ _ => some "newid"
  cancelOrder := fun _ => true

theorem gOrders_quote :
    get_market_making_prices ⟨JsonNum.num 90, JsonNum.num 110⟩ = Except.ok (100, 100) := by
  norm_num [get_market_making_prices, floatOf, mmPricesCore, SPREAD_PERCENTAGE, PRICE_PRECISION,
    pyRound, roundHalfEven]
  decide

theorem gOrders_buy_volume :
    calculate_order_size "XBTZAR" [⟨"XBT", 10, 0⟩, ⟨"ZAR", 1000, 0⟩] 100 "BUY" = 1/5 := by
  norm_num [calculate_order_size, get_asset_balance, ORDER_SIZE_PERCENTAGE, List.find?,
    show ("XBTZAR".drop 3) = "ZAR" from rfl, show (("XBT" : String) == "ZAR") = false by decide]

theorem gOrders_place_mem :
    Event.placeOrder "XBTZAR" "BID" (1/5) 100 ∈ (place_market_making_orders gOrders).1 := by
  have hq := gOrders_quote
  have hleg : (place_leg gOrders [⟨"XBT", 10, 0⟩, ⟨"ZAR", 1000, 0⟩] "XBTZAR" "BID" "BUY" 100).1 =
      [Event.computeSize "XBTZAR" "BUY", Event.placeOrder "XBTZAR" "BID" (1/5) 100] := by
    rw [place_leg_events, gOrders_buy_volume]
    norm_num
  have h1 : Event.placeOrder "XBTZAR" "BID" (1/5) 100 ∈
      (process_pair gOrders [⟨"XBT", 10, 0⟩, ⟨"ZAR", 1000, 0⟩] "XBTZAR").1 := by
    have hg : gOrders.ticker "XBTZAR" = some ⟨JsonNum.num 90, JsonNum.num 110⟩ := rfl
    simp only [process_pair, hg, hq, List.mem_cons, List.mem_append, hleg]
    right; right; left; right
    simp
  have h2 : Event.placeOrder "XBTZAR" "BID" (1/5) 100 ∈
      (run_pairs gOrders [⟨"XBT", 10, 0⟩, ⟨"ZAR", 1000, 0⟩] TRADING_PAIRS).1 := by
    rw [show TRADING_PAIRS = "XBTZAR" :: ["ETHZAR", "XRPZAR", "ETHXBT", "USDCZAR"] from rfl,
      run_pairs_trace]
    exact List.mem_append_left _ h1
  rcases hr : run_pairs gOrders [⟨"XBT", 10, 0⟩, ⟨"ZAR", 1000, 0⟩] TRADING_PAIRS with ⟨evs, r⟩
  have hb : gOrders.balances = some [⟨"XBT", 10, 0⟩, ⟨"ZAR", 1000, 0⟩] := rfl
  simp only [place_market_making_orders, hb, hr, List.mem_cons]
  right
  rw [hr] at h2
  exact h2

/-- C9 witness: at `gOrders` a buy order of volume 1/5 is submitted, and the
theorem certifies its volume positive. -/
theorem orders_positive_volume_witness :
    Event.placeOrder "XBTZAR" "BID" (1/5) 100 ∈ (place_market_making_orders gOrders).1 ∧
    (0:ℚ) < 1/5 :=
  ⟨gOrders_place_mem, orders_positive_volume gOrders "XBTZAR" "BID" (1/5) 100 gOrders_place_mem⟩
/-- C10: when the open-orders listing fails or lacks an `orders` field,
`cancel_all_orders` issues no cancel request; when it returns a list, one
cancel attempt is issued per listed order, each recorded with its own
outcome, so one failed cancel never suppresses the remaining attempts. -/
theorem cancel_all_orders_behaviour (g : Gateway) (pair : Option String) :
    (g.openOrders pair = none → cancel_all_orders g pair = [Event.listOrders pair]) ∧
    (g.openOrders pair = some none → cancel_all_orders g pair = [Event.listOrders pair]) ∧
    (∀ ids, g.openOrders pair = some (some ids) →
      cancel_all_orders g pair =
        Event.listOrders pair ::
          ids.map (fun oid => Event.cancelOrderEv oid (g.cancelOrder oid)) ∧
      ∀ oid ∈ ids, Event.cancelOrderEv oid (g.cancelOrder oid) ∈ cancel_all_orders g pair) := by
  refine ⟨?_, ?_, ?_⟩
  · intro h; simp [cancel_all_orders, h]
  · intro h; simp [cancel_all_orders, h]
  · intro ids h
    constructor
    · simp [cancel_all_orders, h]
    · intro oid hoid
      unfold cancel_all_orders
      rw [h]
      exact List.mem_cons_of_mem _ (List.mem_map.mpr ⟨oid, hoid, rfl⟩)

/-- Gateway scenario for the cancel sweep: a funded account, a malformed
ticker (so the cycle raises), and two open orders of which the first fails
to cancel. -/
def gTwoOrders : Gateway where
  balances := some [⟨"XBT", 1, 0⟩]
  ticker := fun _ => some ⟨JsonNum.missing, JsonNum.num 1⟩
  openOrders := fun _ => some (some ["b1", "b2"])
  createOrder := fun _ _ _ _ => none
  cancelOrder := fun oid => oid == "b2"

/-- C10 witness: with orders b1 (cancel fails) and b2 (cancel succeeds),
both cancel attempts are issued. -/
theorem cancel_all_orders_behaviour_witness :
    cancel_all_orders gTwoOrders none =
      [Event.listOrders none, Event.cancelOrderEv "b1" false, Event.cancelOrderEv "b2" true] ∧
    Event.cancelOrderEv "b1" false ∈ cancel_all_orders gTwoOrders none ∧
    Event.cancelOrderEv "b2" true ∈ cancel_all_orders gTwoOrders none := by
  have h := (cancel_all_orders_behaviour gTwoOrders none).2.2 ["b1", "b2"] rfl
  refine ⟨?_, ?_, ?_⟩
  · rw [h.1]; rfl
  · have := h.2 "b1" (by simp)
    simpa using this
  · have := h.2 "b2" (by simp)
    simpa using this
/-- C8: whether a `KeyboardInterrupt` cuts the cycle after any number `n` of
observable actions, or the cycle ends in an uncaught exception, `main` runs
the venue-wide `cancel_all_orders()` (no pair filter) before terminating,
attempting a cancel for every order the venue lists. -/
theorem shutdown_cancel_sweep (g : Gateway) (ids : List String) (oid : String)
    (hlist : g.openOrders none = some (some ids)) (hmem : oid ∈ ids) :
    (∀ n : ℕ, Event.listOrders none ∈ main_model g (some n) ∧
      Event.cancelOrderEv oid (g.cancelOrder oid) ∈ main_model g (some n)) ∧
    (∀ e, (place_market_making_orders g).2 = Except.error e →
      Event.listOrders none ∈ main_model g none ∧
      Event.cancelOrderEv oid (g.cancelOrder oid) ∈ main_model g none) := by
  have hl : Event.listOrders none ∈ cancel_all_orders g none := by
    unfold cancel_all_orders
    exact List.mem_cons_self _ _
  have hc : Event.cancelOrderEv oid (g.cancelOrder oid) ∈ cancel_all_orders g none := by
    unfold cancel_all_orders
    rw [hlist]
    exact List.mem_cons_of_mem _ (List.mem_map.mpr ⟨oid, hmem, rfl⟩)
  constructor
  · intro n
    constructor <;>
      · simp only [main_model]
        exact List.mem_append_right _ (by assumption)
  · intro e he
    constructor <;>
      · simp only [main_model, he]
        exact List.mem_append_right _ (by assumption)

theorem gTwoOrders_cycle_error :
    (place_market_making_orders gTwoOrders).2 = Except.error MMError.InvalidMarketData := by
  have hpp : process_pair gTwoOrders [⟨"XBT", 1, 0⟩] "XBTZAR" =
      ([Event.getTicker "XBTZAR"], Except.error MMError.InvalidMarketData) := by
    simp [process_pair, show gTwoOrders.ticker "XBTZAR" = some ⟨JsonNum.missing, JsonNum.num 1⟩
      from rfl, get_market_making_prices, floatOf]
  simp [place_market_making_orders, TRADING_PAIRS, run_pairs, hpp,
    show gTwoOrders.balances = some [⟨"XBT", 1, 0⟩] from rfl]

/-- C8 witness: at `gTwoOrders`, both for an interrupt after one action and
for the erroring cycle, the sweep lists venue-wide and attempts order b1. -/
theorem shutdown_cancel_sweep_witness :
    (Event.listOrders none ∈ main_model gTwoOrders (some 1) ∧
      Event.cancelOrderEv "b1" false ∈ main_model gTwoOrders (some 1)) ∧
    (Event.listOrders none ∈ main_model gTwoOrders none ∧
      Event.cancelOrderEv "b1" false ∈ main_model gTwoOrders none) := by
  have hco : gTwoOrders.cancelOrder "b1" = false := by decide
  have H := shutdown_cancel_sweep gTwoOrders ["b1", "b2"] "b1" rfl (by simp)
  refine ⟨⟨(H.1 1).1, ?_⟩, ⟨(H.2 _ gTwoOrders_cycle_error).1, ?_⟩⟩
  · have h2 := (H.1 1).2
    rwa [hco] at h2
  · have h2 := (H.2 _ gTwoOrders_cycle_error).2
    rwa [hco] at h2
/-- Gateway scenario with one healthy pair, one resting order, empty
balances: exercises the per-pair step order. -/
def gFetchFirst : Gateway where
  balances := some []
  ticker := fun _ => some ⟨JsonNum.num 90, JsonNum.num 110⟩
  openOrders := fun _ => some (some ["o1"])
  createOrder := fun _ _ _ _ => none
  cancelOrder := fun _ => true

/-- C2, counterexample to the claim as stated: in the concrete per-pair
trace the ticker fetch is the very first action and the cancellation of the
pair's orders appears only afterwards, so cancellation does not happen
before the ticker fetch. -/
theorem per_pair_order_cex :
    (process_pair gFetchFirst [] "XBTZAR").1 =
      [Event.getTicker "XBTZAR", Event.computeQuote "XBTZAR",
       Event.listOrders (some "XBTZAR"), Event.cancelOrderEv "o1" true,
       Event.computeSize "XBTZAR" "BUY", Event.computeSize "XBTZAR" "ASK"] ∧
    (process_pair gFetchFirst [] "XBTZAR").1.head? = some (Event.getTicker "XBTZAR") ∧
    Event.listOrders (some "XBTZAR") ∉ (process_pair gFetchFirst [] "XBTZAR").1.take 2 ∧
    Event.listOrders (some "XBTZAR") ∈ (process_pair gFetchFirst [] "XBTZAR").1 := by
  have hq : get_market_making_prices ⟨JsonNum.num 90, JsonNum.num 110⟩ =
      Except.ok (100, 100) := by
    norm_num [get_market_making_prices, floatOf, mmPricesCore, SPREAD_PERCENTAGE,
      PRICE_PRECISION, pyRound, roundHalfEven]
    decide
  have hvb : calculate_order_size "XBTZAR" [] (100:ℚ) "BUY" = 0 := by
    simp [calculate_order_size, get_asset_balance]
  have hvs : calculate_order_size "XBTZAR" [] (100:ℚ) "ASK" = 0 := by
    simp [calculate_order_size, get_asset_balance,
      show (("ASK" : String) == "BUY") = false by decide]
  have htr : (process_pair gFetchFirst [] "XBTZAR").1 =
      [Event.getTicker "XBTZAR", Event.computeQuote "XBTZAR",
       Event.listOrders (some "XBTZAR"), Event.cancelOrderEv "o1" true,
       Event.computeSize "XBTZAR" "BUY", Event.computeSize "XBTZAR" "ASK"] := by
    simp only [process_pair,
      show gFetchFirst.ticker "XBTZAR" = some ⟨JsonNum.num 90, JsonNum.num 110⟩ from rfl, hq,
      place_leg_events, hvb, hvs]
    norm_num [cancel_all_orders, show gFetchFirst.openOrders (some "XBTZAR") =
      some (some ["o1"]) from rfl, show gFetchFirst.cancelOrder "o1" = true from rfl]
  rw [htr]
  refine ⟨rfl, rfl, ?_, ?_⟩ <;> decide

/-- C2, amended: per pair the actual step order is fetch ticker, compute the
quote pair, cancel the pair's open orders, compute the buy size and submit
the buy, compute the sell size and submit the sell; the ticker fetch is the
first per-pair action, before any cancellation. -/
theorem per_pair_order_amended (g : Gateway) (bals : List Account) (pair : String)
    (t : Ticker) (q : ℚ × ℚ) (ht : g.ticker pair = some t)
    (hq : get_market_making_prices t = Except.ok q) :
    (process_pair g bals pair).1 =
      Event.getTicker pair :: Event.computeQuote pair ::
        (cancel_all_orders g (some pair) ++
          ((Event.computeSize pair "BUY" ::
              (if calculate_order_size pair bals q.1 "BUY" > 0 then
                [Event.placeOrder pair "BID" (calculate_order_size pair bals q.1 "BUY") q.1]
              else [])) ++
            (Event.computeSize pair "ASK" ::
              (if calculate_order_size pair bals q.2 "ASK" > 0 then
                [Event.placeOrder pair "ASK" (calculate_order_size pair bals q.2 "ASK") q.2]
              else [])))) ∧
    (process_pair g bals pair).1.head? = some (Event.getTicker pair) := by
  constructor
  · simp only [process_pair, ht, hq, place_leg_events]
    simp [List.append_assoc]
  · simp [process_pair, ht, hq]

/-- C2 witness: the amended step order at `gFetchFirst`. -/
theorem per_pair_order_amended_witness :
    (process_pair gFetchFirst [] "XBTZAR").1 =
      Event.getTicker "XBTZAR" :: Event.computeQuote "XBTZAR" ::
        (cancel_all_orders gFetchFirst (some "XBTZAR") ++
          ((Event.computeSize "XBTZAR" "BUY" ::
              (if calculate_order_size "XBTZAR" [] (100:ℚ) "BUY" > 0 then
                [Event.placeOrder "XBTZAR" "BID" (calculate_order_size "XBTZAR" [] (100:ℚ) "BUY") 100]
              else [])) ++
            (Event.computeSize "XBTZAR" "ASK" ::
              (if calculate_order_size "XBTZAR" [] (100:ℚ) "ASK" > 0 then
                [Event.placeOrder "XBTZAR" "ASK" (calculate_order_size "XBTZAR" [] (100:ℚ) "ASK") 100]
              else [])))) ∧
    (process_pair gFetchFirst [] "XBTZAR").1.head? = some (Event.getTicker "XBTZAR") :=
  per_pair_order_amended gFetchFirst [] "XBTZAR" ⟨JsonNum.num 90, JsonNum.num 110⟩ (100, 100)
    rfl
    (by norm_num [get_market_making_prices, floatOf, mmPricesCore, SPREAD_PERCENTAGE,
          PRICE_PRECISION, pyRound, roundHalfEven]
        decide)
/-- Gateway scenario where the first pair's ticker payload lacks the bid
field while every other pair is healthy and the account is funded. -/
def gBadTicker : Gateway where
  balances := some [⟨"XBT", 1, 0⟩]
  ticker := fun p =>
    if p = "XBTZAR" then some ⟨JsonNum.missing, JsonNum.num 100⟩
    else some ⟨JsonNum.num 100, JsonNum.num 102⟩
  openOrders := fun _ => some (some [])
  createOrder := fun _ _ _ _ => none
  cancelOrder := fun _ => true

/-- C3, counterexample to the claim as stated: a missing bid on the first
pair makes the whole cycle fail with InvalidMarketData — the second pair is
never fetched or quoted, so the pair is not merely skipped. -/
theorem invalid_ticker_cex :
    (place_market_making_orders gBadTicker).2 = Except.error MMError.InvalidMarketData ∧
    Event.getTicker "ETHZAR" ∉ (place_market_making_orders gBadTicker).1 ∧
    Event.computeQuote "ETHZAR" ∉ (place_market_making_orders gBadTicker).1 := by
  have hpp : process_pair gBadTicker [⟨"XBT", 1, 0⟩] "XBTZAR" =
      ([Event.getTicker "XBTZAR"], Except.error MMError.InvalidMarketData) := by
    simp [process_pair, show gBadTicker.ticker "XBTZAR" =
      some ⟨JsonNum.missing, JsonNum.num 100⟩ from rfl, get_market_making_prices, floatOf]
  have h : place_market_making_orders gBadTicker =
      ([Event.getBalances, Event.getTicker "XBTZAR"], Except.error MMError.InvalidMarketData) := by
    simp [place_market_making_orders, TRADING_PAIRS, run_pairs, hpp,
      show gBadTicker.balances = some [⟨"XBT", 1, 0⟩] from rfl]
  rw [h]
  refine ⟨rfl, ?_, ?_⟩ <;> decide

/-- The ticker-fetch events of a per-pair trace name only that pair. -/
theorem getTicker_mem_process_pair {g : Gateway} {bals : List Account} {pair p2 : String}
    (h : Event.getTicker p2 ∈ (process_pair g bals pair).1) : p2 = pair := by
  rcases hg : g.ticker pair with _ | t
  · simp [process_pair, hg] at h
    exact h
  · rcases hq : get_market_making_prices t with e | q
    · simp [process_pair, hg, hq] at h
      exact h
    · simp only [process_pair, hg, hq, List.mem_cons, List.mem_append] at h
      rcases h with h | h | (h | h) | h
      · simp only [Event.getTicker.injEq] at h
        exact h
      · simp at h
      · rcases mem_cancel_all_orders h with h1 | ⟨oid, h1⟩ <;> simp at h1
      · rcases mem_place_leg_events h with h1 | ⟨h1, -⟩ <;> simp at h1
      · rcases mem_place_leg_events h with h1 | ⟨h1, -⟩ <;> simp at h1

/-- The loop result over `pair :: rest`: the pair's exception if it raised,
else the result of the remaining pairs extended with the pair's records. -/
theorem run_pairs_result (g : Gateway) (bals : List Account) (pair : String)
    (rest : List String) :
    (run_pairs g bals (pair :: rest)).2 =
      match (process_pair g bals pair).2 with
      | Except.error e => Except.error e
      | Except.ok recs =>
          match (run_pairs g bals rest).2 with
          | Except.error e => Except.error e
          | Except.ok recs2 => Except.ok (recs ++ recs2) := by
  simp only [run_pairs]
  rcases hp : process_pair g bals pair with ⟨evs, r⟩
  rcases r with e | recs
  · simp
  · rcases hr : run_pairs g bals rest with ⟨evs2, r2⟩
    rcases r2 with e2 | recs2 <;> simp

/-- If any listed pair carries a malformed ticker payload, the loop over
those pairs ends in InvalidMarketData (exceptions arise only from the quote
parse, so the first such pair that is reached raises). -/
theorem run_pairs_error_of_bad (g : Gateway) (bals : List Account) :
    ∀ ps : List String,
    (∃ p ∈ ps, ∃ t, g.ticker p = some t ∧
      get_market_making_prices t = Except.error MMError.InvalidMarketData) →
    (run_pairs g bals ps).2 = Except.error MMError.InvalidMarketData := by
  intro ps
  induction ps with
  | nil => intro h; simp at h
  | cons pair rest ih =>
      intro h
      rw [run_pairs_result]
      rcases hp : (process_pair g bals pair).2 with e | recs
      · cases e
        rfl
      · obtain ⟨p, hpmem, t, ht, hterr⟩ := h
        rcases List.mem_cons.mp hpmem with rfl | hpm2
        · have hbadres : (process_pair g bals p).2 =
              Except.error MMError.InvalidMarketData := by
            simp [process_pair, ht, hterr]
          rw [hp] at hbadres
          simp at hbadres
        · rw [ih ⟨p, hpm2, t, ht, hterr⟩]

/-- Once a pair's malformed ticker raises, no later pair is fetched: every
ticker fetch in the cycle's truncated trace names a pair at or before the
failing one. -/
theorem getTicker_before_bad (g : Gateway) (bals : List Account) (badPair : String)
    (post : List String) (t : Ticker) (ht : g.ticker badPair = some t)
    (hterr : get_market_making_prices t = Except.error MMError.InvalidMarketData) :
    ∀ (pre : List String) (p : String),
      Event.getTicker p ∈ (run_pairs g bals (pre ++ badPair :: post)).1 →
      p ∈ pre ∨ p = badPair := by
  intro pre
  induction pre with
  | nil =>
      intro p hp
      have hbadres : (process_pair g bals badPair).2 =
          Except.error MMError.InvalidMarketData := by
        simp [process_pair, ht, hterr]
      have htr : (run_pairs g bals (badPair :: post)).1 =
          (process_pair g bals badPair).1 := by
        simp [run_pairs_trace, hbadres]
      rw [List.nil_append, htr] at hp
      exact Or.inr (getTicker_mem_process_pair hp)
  | cons a pre2 ih =>
      intro p hp
      rw [List.cons_append, run_pairs_trace] at hp
      rcases List.mem_append.mp hp with h | h
      · left
        rw [getTicker_mem_process_pair h]
        exact List.mem_cons_self a pre2
      · rcases hres : (process_pair g bals a).2 with e | recs
        · rw [hres] at h
          simp at h
        · rw [hres] at h
          rcases ih p h with h2 | h2
          · exact Or.inl (List.mem_cons_of_mem _ h2)
          · exact Or.inr h2

/-- C3, amended: a ticker payload with a missing or non-numeric bid or ask
makes the Quote Calculator fail with InvalidMarketData, and the caller does
not catch it: whichever configured pair carries the malformed payload (and
given a non-empty balance fetch, so the cycle runs at all), the cycle ends
in that exception, no pair listed after the failing one is even fetched,
and the top-level handler then runs the venue-wide cancel sweep before the
process exits. -/
theorem invalid_ticker_amended (g : Gateway) (bals : List Account)
    (pre post : List String) (badPair : String) (t : Ticker)
    (hb : g.balances = some bals) (hbne : bals ≠ [])
    (hsplit : TRADING_PAIRS = pre ++ badPair :: post)
    (ht : g.ticker badPair = some t)
    (hbad : (t.bid = JsonNum.missing ∨ t.bid = JsonNum.nonNumeric) ∨
      (t.ask = JsonNum.missing ∨ t.ask = JsonNum.nonNumeric)) :
    get_market_making_prices t = Except.error MMError.InvalidMarketData ∧
    (place_market_making_orders g).2 = Except.error MMError.InvalidMarketData ∧
    (∀ p, p ∈ post → p ∉ pre → p ≠ badPair →
      Event.getTicker p ∉ (place_market_making_orders g).1) ∧
    main_model g none = (place_market_making_orders g).1 ++ cancel_all_orders g none := by
  have h1 : get_market_making_prices t = Except.error MMError.InvalidMarketData := by
    rcases hbad with hbid | hask
    · rcases hbid with h | h <;> simp [get_market_making_prices, floatOf, h]
    · rcases hbb : t.bid with _ | _ | q
      · simp [get_market_making_prices, floatOf, hbb]
      · simp [get_market_making_prices, floatOf, hbb]
      · rcases hask with h | h <;> simp [get_market_making_prices, floatOf, hbb, h]
  rcases bals with _ | ⟨account, accounts⟩
  · exact absurd rfl hbne
  · have hpm : place_market_making_orders g =
        (Event.getBalances :: (run_pairs g (account :: accounts) TRADING_PAIRS).1,
          (run_pairs g (account :: accounts) TRADING_PAIRS).2) := by
      rcases hr : run_pairs g (account :: accounts) TRADING_PAIRS with ⟨evs, r⟩
      simp [place_market_making_orders, hb, hr]
    have herr : (run_pairs g (account :: accounts) TRADING_PAIRS).2 =
        Except.error MMError.InvalidMarketData := by
      apply run_pairs_error_of_bad
      exact ⟨badPair,
        by rw [hsplit]; exact List.mem_append_right _ (List.mem_cons_self _ _),
        t, ht, h1⟩
    have hcyc2 : (place_market_making_orders g).2 =
        Except.error MMError.InvalidMarketData := by
      rw [hpm]
      exact herr
    refine ⟨h1, hcyc2, ?_, ?_⟩
    · intro p hpost hpre hne hmem
      rw [hpm] at hmem
      rcases List.mem_cons.mp hmem with h | h
      · cases h
      · rw [hsplit] at h
        rcases getTicker_before_bad g (account :: accounts) badPair post t ht h1 pre p h
          with h2 | h2
        · exact hpre h2
        · exact hne h2
    · simp only [main_model, hcyc2]

/-- Gateway scenario where the third configured pair's ticker has a
non-numeric ask while every other pair is healthy and the account is
funded. -/
def gBadAsk : Gateway where
  balances := some [⟨"XBT", 1, 0⟩]
  ticker := fun p =>
    if p = "XRPZAR" then some ⟨JsonNum.num 100, JsonNum.nonNumeric⟩
    else some ⟨JsonNum.num 100, JsonNum.num 102⟩
  openOrders := fun _ => some (some [])
  createOrder := fun _ _ _ _ => none
  cancelOrder := fun _ => true

/-- C3 witness: the amended behaviour at `gBadAsk` — a non-numeric ask on
the third configured pair aborts the cycle, the fourth pair is never
fetched, and the error path appends the venue-wide sweep. -/
theorem invalid_ticker_amended_witness :
    get_market_making_prices ⟨JsonNum.num 100, JsonNum.nonNumeric⟩ =
      Except.error MMError.InvalidMarketData ∧
    (place_market_making_orders gBadAsk).2 = Except.error MMError.InvalidMarketData ∧
    Event.getTicker "ETHXBT" ∉ (place_market_making_orders gBadAsk).1 ∧
    main_model gBadAsk none =
      (place_market_making_orders gBadAsk).1 ++ cancel_all_orders gBadAsk none := by
  have H := invalid_ticker_amended gBadAsk [⟨"XBT", 1, 0⟩] ["XBTZAR", "ETHZAR"]
    ["ETHXBT", "USDCZAR"] "XRPZAR" ⟨JsonNum.num 100, JsonNum.nonNumeric⟩ rfl (by simp)
    rfl (by simp [gBadAsk]) (Or.inr (Or.inr rfl))
  exact ⟨H.1, H.2.1, H.2.2.1 "ETHXBT" (by simp) (by decide) (by decide), H.2.2.2⟩

/-- Recognises the per-pair ticker-failure log line in a trace. -/
def isTickerFailEv : Event → Bool
  | Event.logTickerFail _ => true
  | Event.getBalances => false
  | Event.getTicker _ => false
  | Event.computeQuote _ => false
  | Event.listOrders _ => false
  | Event.cancelOrderEv _ _ => false
  | Event.computeSize _ _ => false
  | Event.placeOrder _ _ _ _ => false

theorem countP_fail_cancel (g : Gateway) (p : Option String) :
    (cancel_all_orders g p).countP isTickerFailEv = 0 := by
  cases hg : g.openOrders p with
  | none => simp [cancel_all_orders, hg, isTickerFailEv]
  | some op =>
      cases op with
      | none => simp [cancel_all_orders, hg, isTickerFailEv]
      | some ids =>
          simp [cancel_all_orders, hg, isTickerFailEv, List.countP_map, Function.comp]

theorem countP_fail_leg (g : Gateway) (bals : List Account) (pair ty side : String) (price : ℚ) :
    ((place_leg g bals pair ty side price).1).countP isTickerFailEv = 0 := by
  rw [place_leg_events]
  split_ifs <;> simp [isTickerFailEv]

theorem process_pair_fail_props (g : Gateway) (bals : List Account) (pair : String)
    (hok : ∀ t, g.ticker pair = some t → ∃ q, get_market_making_prices t = Except.ok q) :
    (∃ recs, (process_pair g bals pair).2 = Except.ok recs) ∧
    ((process_pair g bals pair).1).countP isTickerFailEv =
      (if (g.ticker pair).isNone then 1 else 0) ∧
    ((g.ticker pair).isNone = true → Event.logTickerFail pair ∈ (process_pair g bals pair).1) ∧
    ((g.ticker pair).isSome = true → Event.computeQuote pair ∈ (process_pair g bals pair).1) := by
  cases hg : g.ticker pair with
  | none =>
      refine ⟨⟨[], by simp [process_pair, hg]⟩, ?_, ?_, ?_⟩
      · simp [process_pair, hg, isTickerFailEv]
      · intro _; simp [process_pair, hg]
      · intro h; simp at h
  | some t =>
      obtain ⟨q, hq⟩ := hok t hg
      refine ⟨⟨(place_leg g bals pair "BID" "BUY" q.1).2 ++
        (place_leg g bals pair "ASK" "ASK" q.2).2, by simp [process_pair, hg, hq]⟩, ?_, ?_, ?_⟩
      · simp [process_pair, hg, hq, List.countP_cons, List.countP_append, countP_fail_cancel,
          countP_fail_leg, isTickerFailEv]
      · intro h; simp at h
      · intro _
        simp [process_pair, hg, hq]

theorem run_pairs_fail_props (g : Gateway) (bals : List Account) :
    ∀ ps : List String,
    (∀ p ∈ ps, ∀ t, g.ticker p = some t → ∃ q, get_market_making_prices t = Except.ok q) →
    (∃ recs, (run_pairs g bals ps).2 = Except.ok recs) ∧
    ((run_pairs g bals ps).1).countP isTickerFailEv =
      ps.countP (fun p => (g.ticker p).isNone) ∧
    (∀ p ∈ ps, (g.ticker p).isNone = true → Event.logTickerFail p ∈ (run_pairs g bals ps).1) ∧
    (∀ p ∈ ps, (g.ticker p).isSome = true → Event.computeQuote p ∈ (run_pairs g bals ps).1) := by
  intro ps
  induction ps with
  | nil => intro _; refine ⟨⟨[], rfl⟩, by simp [run_pairs], by simp, by simp⟩
  | cons pair rest ih =>
      intro hok
      obtain ⟨⟨recs, hrecs⟩, hcount, hmemf, hmemq⟩ :=
        process_pair_fail_props g bals pair (hok pair (by simp))
      obtain ⟨⟨recs2, hrecs2⟩, hcount2, hmemf2, hmemq2⟩ :=
        ih (fun p hp => hok p (List.mem_cons_of_mem _ hp))
      have htr : (run_pairs g bals (pair :: rest)).1 =
          (process_pair g bals pair).1 ++ (run_pairs g bals rest).1 := by
        rw [run_pairs_trace, hrecs]
      have hres : (run_pairs g bals (pair :: rest)).2 = Except.ok (recs ++ recs2) := by
        simp only [run_pairs]
        rcases hp : process_pair g bals pair with ⟨evs, r⟩
        rw [hp] at hrecs
        simp only at hrecs
        subst hrecs
        rcases hr : run_pairs g bals rest with ⟨evs2, r2⟩
        rw [hr] at hrecs2
        simp only at hrecs2
        subst hrecs2
        rfl
      refine ⟨⟨recs ++ recs2, hres⟩, ?_, ?_, ?_⟩
      · rw [htr, List.countP_append, hcount, hcount2, List.countP_cons]
        by_cases hn : (g.ticker pair).isNone = true <;> simp [hn]
        omega
      · intro p hp hnone
        rw [htr]
        rcases List.mem_cons.mp hp with rfl | hp
        · exact List.mem_append_left _ (hmemf hnone)
        · exact List.mem_append_right _ (hmemf2 p hp hnone)
      · intro p hp hsome
        rw [htr]
        rcases List.mem_cons.mp hp with rfl | hp
        · exact List.mem_append_left _ (hmemq hsome)
        · exact List.mem_append_right _ (hmemq2 p hp hsome)

/-- C7: with one configured pair's ticker fetch failing at transport level
and the other four healthy (and a non-empty balance fetch, so the cycle
runs at all), the cycle completes normally, logs exactly one ticker failure
(for the failing pair), and still computes quotes for the other four
pairs. -/
theorem one_pair_fail_cycle (g : Gateway) (bals : List Account) (p0 : String)
    (hb : g.balances = some bals) (hbne : bals ≠ []) (hp0 : p0 ∈ TRADING_PAIRS)
    (hfail : g.ticker p0 = none)
    (hok : ∀ p ∈ TRADING_PAIRS, p ≠ p0 →
      ∃ t, g.ticker p = some t ∧ ∃ q, get_market_making_prices t = Except.ok q) :
    (∃ recs, (place_market_making_orders g).2 = Except.ok recs) ∧
    ((place_market_making_orders g).1).countP isTickerFailEv = 1 ∧
    Event.logTickerFail p0 ∈ (place_market_making_orders g).1 ∧
    (∀ p ∈ TRADING_PAIRS, p ≠ p0 →
      Event.computeQuote p ∈ (place_market_making_orders g).1) := by
  have hok2 : ∀ p ∈ TRADING_PAIRS, ∀ t, g.ticker p = some t →
      ∃ q, get_market_making_prices t = Except.ok q := by
    intro p hp t ht
    by_cases he : p = p0
    · subst he; rw [hfail] at ht; cases ht
    · obtain ⟨t2, ht2, q, hq⟩ := hok p hp he
      have h := ht2.symm.trans ht
      injection h with h
      subst h
      exact ⟨q, hq⟩
  obtain ⟨⟨recs, hres⟩, hcount, hmemf, hmemq⟩ := run_pairs_fail_props g bals TRADING_PAIRS hok2
  have hpm : place_market_making_orders g =
      (Event.getBalances :: (run_pairs g bals TRADING_PAIRS).1,
        (run_pairs g bals TRADING_PAIRS).2) := by
    rcases bals with _ | ⟨account, accounts⟩
    · exact absurd rfl hbne
    · rcases hr : run_pairs g (account :: accounts) TRADING_PAIRS with ⟨evs, r⟩
      simp [place_market_making_orders, hb, hr]
  have h5 : ∀ p ∈ TRADING_PAIRS, p ≠ p0 → (g.ticker p).isNone = false := by
    intro p hp hne
    obtain ⟨t, ht, -⟩ := hok p hp hne
    simp [ht]
  have hcnt1 : TRADING_PAIRS.countP (fun p => (g.ticker p).isNone) = 1 := by
    have hp0' := hp0
    simp only [TRADING_PAIRS, List.mem_cons, List.not_mem_nil, or_false] at hp0'
    rcases hp0' with rfl | rfl | rfl | rfl | rfl
    · simp [TRADING_PAIRS, List.countP_cons, hfail,
        h5 "ETHZAR" (by simp [TRADING_PAIRS]) (by decide),
        h5 "XRPZAR" (by simp [TRADING_PAIRS]) (by decide),
        h5 "ETHXBT" (by simp [TRADING_PAIRS]) (by decide),
        h5 "USDCZAR" (by simp [TRADING_PAIRS]) (by decide)]
    · simp [TRADING_PAIRS, List.countP_cons, hfail,
        h5 "XBTZAR" (by simp [TRADING_PAIRS]) (by decide),
        h5 "XRPZAR" (by simp [TRADING_PAIRS]) (by decide),
        h5 "ETHXBT" (by simp [TRADING_PAIRS]) (by decide),
        h5 "USDCZAR" (by simp [TRADING_PAIRS]) (by decide)]
    · simp [TRADING_PAIRS, List.countP_cons, hfail,
        h5 "XBTZAR" (by simp [TRADING_PAIRS]) (by decide),
        h5 "ETHZAR" (by simp [TRADING_PAIRS]) (by decide),
        h5 "ETHXBT" (by simp [TRADING_PAIRS]) (by decide),
        h5 "USDCZAR" (by simp [TRADING_PAIRS]) (by decide)]
    · simp [TRADING_PAIRS, List.countP_cons, hfail,
        h5 "XBTZAR" (by simp [TRADING_PAIRS]) (by decide),
        h5 "ETHZAR" (by simp [TRADING_PAIRS]) (by decide),
        h5 "XRPZAR" (by simp [TRADING_PAIRS]) (by decide),
        h5 "USDCZAR" (by simp [TRADING_PAIRS]) (by decide)]
    · simp [TRADING_PAIRS, List.countP_cons, hfail,
        h5 "XBTZAR" (by simp [TRADING_PAIRS]) (by decide),
        h5 "ETHZAR" (by simp [TRADING_PAIRS]) (by decide),
        h5 "XRPZAR" (by simp [TRADING_PAIRS]) (by decide),
        h5 "ETHXBT" (by simp [TRADING_PAIRS]) (by decide)]
  refine ⟨⟨recs, by rw [hpm]; exact hres⟩, ?_, ?_, ?_⟩
  · rw [hpm]
    simp [List.countP_cons, isTickerFailEv, hcount, hcnt1]
  · rw [hpm]
    exact List.mem_cons_of_mem _ (hmemf p0 hp0 (by simp [hfail]))
  · intro p hp hne
    rw [hpm]
    obtain ⟨t, ht, -⟩ := hok p hp hne
    exact List.mem_cons_of_mem _ (hmemq p hp (by simp [ht]))

/-- Gateway scenario where exactly one of the five configured pairs has a
failing ticker fetch. -/
def gOneFail : Gateway where
  balances := some [⟨"ZAR", 100, 0⟩]
  ticker := fun p => if p = "XRPZAR" then none else some ⟨JsonNum.num 100, JsonNum.num 102⟩
  openOrders := fun _ => some (some [])
  createOrder := fun _ _ _ _ => none
  cancelOrder := fun _ => true

/-- C7 witness: at `gOneFail` the cycle succeeds, logs exactly one ticker
failure (for XRPZAR), and quotes the other four pairs. -/
theorem one_pair_fail_cycle_witness :
    (∃ recs, (place_market_making_orders gOneFail).2 = Except.ok recs) ∧
    ((place_market_making_orders gOneFail).1).countP isTickerFailEv = 1 ∧
    Event.logTickerFail "XRPZAR" ∈ (place_market_making_orders gOneFail).1 ∧
    (∀ p ∈ TRADING_PAIRS, p ≠ "XRPZAR" →
      Event.computeQuote p ∈ (place_market_making_orders gOneFail).1) := by
  apply one_pair_fail_cycle gOneFail [⟨"ZAR", 100, 0⟩] "XRPZAR" rfl (by simp)
    (by simp [TRADING_PAIRS]) (by simp [gOneFail])
  intro p hp hne
  refine ⟨⟨JsonNum.num 100, JsonNum.num 102⟩, ?_, (100, 102), ?_⟩
  · simp [gOneFail, hne]
  · norm_num [get_market_making_prices, floatOf, mmPricesCore, SPREAD_PERCENTAGE,
      PRICE_PRECISION, pyRound, roundHalfEven]
